import Mathlib

/-!
Verification development for the inventory-backed resource allocation and
reference-resolution engine of the homelab-cli repository.

The definitions below are a shallow embedding of `src/lib/function.js`
(current version, the one exporting the reservation ledger) and of
`Bw.prototype.fill` from `src/lib/bw.js`.  JavaScript strings are embedded
as `String`, JavaScript `BigInt` as `Int`, JavaScript arrays as `List`,
thrown exceptions as `Except.error`, and `undefined` results as `Option`.
Mutation of the in-memory inventory object is embedded as explicit state
passing: an operation that mutates its `inventory` argument returns the
updated inventory alongside its result value.
-/

namespace HomelabCli

/-! ### JavaScript string primitives

Helpers modelling the JavaScript standard-library string operations used by
the source (`String.prototype.split`, `String.prototype.replace` with a
plain-string pattern, substring containment).  They operate on `List Char`
with explicit fuel so that every definition is structurally recursive and
kernel-computable. -/

/-- Does the list `p` occur as a prefix of `s`? -/
def isPrefixL : List Char → List Char → Bool
  | [], _ => true
  | _ :: _, [] => false
  | p :: ps, c :: cs => p = c && isPrefixL ps cs

/-- Fuel-driven core of `jsSplit`; `fuel` at least the length of the input
guarantees the fuel never runs out. -/
def splitOnF (sep : List Char) : Nat → List Char → List Char → List (List Char)
  | _, [], cur => [cur.reverse]
  | 0, s, cur => [cur.reverse ++ s]
  | fuel + 1, c :: rest, cur =>
    if isPrefixL sep (c :: rest) then
      cur.reverse :: splitOnF sep fuel ((c :: rest).drop sep.length) []
    else
      splitOnF sep fuel rest (c :: cur)

/-- Modelled from the JavaScript standard library: `s.split(sep)` for a
non-empty string separator `sep` (the only way the source calls it). -/
def jsSplit (s sep : String) : List String :=
  (splitOnF sep.toList s.toList.length s.toList []).map String.mk

/-- Core of `jsReplaceFirst`: replace the first occurrence of `pat` in the
character list, or leave the list unchanged when `pat` does not occur. -/
def replaceFirstL (pat repl : List Char) : List Char → List Char
  | [] => []
  | c :: rest =>
    if isPrefixL pat (c :: rest) then
      repl ++ (c :: rest).drop pat.length
    else
      c :: replaceFirstL pat repl rest

/-- Modelled from the JavaScript standard library: `s.replace(pat, repl)`
with a plain-string (non-regex) pattern, which replaces only the first
occurrence.  Not modelled: `$`-escape sequences in `repl` (never produced
by the source's inputs). -/
def jsReplaceFirst (s pat repl : String) : String :=
  ⟨replaceFirstL pat.toList repl.toList s.toList⟩

/-- Does `sub` occur as a contiguous substring of `s`?  Models
`String.prototype.includes` for non-empty `sub`. -/
def containsSub (sub : List Char) : List Char → Bool
  | [] => isPrefixL sub []
  | c :: rest => isPrefixL sub (c :: rest) || containsSub sub rest

/-! ### JavaScript number parsing -/

/-- Value of a list of decimal digit characters. -/
def decValue (cs : List Char) : Nat := cs.foldl (fun a c => a * 10 + (c.toNat - 48)) 0

/-- Is `c` a hexadecimal digit? -/
def isHexDigitCh (c : Char) : Bool :=
  c.isDigit || ('a' ≤ c && c ≤ 'f') || ('A' ≤ c && c ≤ 'F')

/-- Value of one hexadecimal digit character. -/
def hexDigitVal (c : Char) : Nat :=
  if c.isDigit then c.toNat - 48
  else if 'a' ≤ c && c ≤ 'f' then c.toNat - 87
  else c.toNat - 55

/-- Value of a list of hexadecimal digit characters. -/
def hexValue (cs : List Char) : Nat := cs.foldl (fun a c => a * 16 + hexDigitVal c) 0

/-- Modelled from the JavaScript standard library: `parseInt(s, 10)`.
Skips leading whitespace, accepts an optional sign, then reads the longest
leading run of decimal digits; `none` models the `NaN` result. -/
def parseIntDec (s : String) : Option Int :=
  let cs := s.toList.dropWhile (fun c => c = ' ' || c = '\t' || c = '\n' || c = '\r')
  let signed : Int × List Char :=
    match cs with
    | '-' :: rest => (-1, rest)
    | '+' :: rest => (1, rest)
    | _ => (1, cs)
  let ds := signed.2.takeWhile Char.isDigit
  if ds.isEmpty then none else some (signed.1 * (decValue ds : Nat))

/-- Modelled from the JavaScript standard library: `parseInt(s, 16)`.
Like `parseIntDec` but hexadecimal, also accepting an optional `0x`/`0X`
marker after the sign. -/
def parseIntHex (s : String) : Option Int :=
  let cs := s.toList.dropWhile (fun c => c = ' ' || c = '\t' || c = '\n' || c = '\r')
  let signed : Int × List Char :=
    match cs with
    | '-' :: rest => (-1, rest)
    | '+' :: rest => (1, rest)
    | _ => (1, cs)
  let body :=
    match signed.2 with
    | '0' :: 'x' :: rest => rest
    | '0' :: 'X' :: rest => rest
    | other => other
  let ds := body.takeWhile isHexDigitCh
  if ds.isEmpty then none else some (signed.1 * (hexValue ds : Nat))

/-! ### IP address conversions

Embedding of the helper functions declared inside `getNextIpAddress`
(`src/lib/function.js` lines 309-342).  `BigInt` arithmetic is embedded as
`Int` (`<< 8n` is multiplication by 256, `>> 24n` is flooring division,
`& 0xFFn` is `emod`); `BigInt(NaN)` throws in JavaScript, which is embedded
by returning `none` from the conversion. -/

/-- Embeds `ipv4ToBig`: fold the dot-separated octets through
`(acc << 8n) + BigInt(parseInt(octet, 10))`; `none` when some octet parses
to `NaN` (in which case the JavaScript code throws a `RangeError`). -/
def ipv4ToBig (ip : String) : Option Int :=
  (jsSplit ip ".").foldlM (fun acc oct => (parseIntDec oct).map (fun o => acc * 256 + o)) 0

/-- Embeds `bigToIpv4`: extract the four bytes and join them with dots. -/
def bigToIpv4 (n : Int) : String :=
  String.intercalate "."
    [toString ((n.fdiv 16777216).emod 256), toString ((n.fdiv 65536).emod 256),
     toString ((n.fdiv 256).emod 256), toString (n.emod 256)]

/-- Embeds `expandIpv6`: expand a `::` abbreviation to the full list of
eight groups, replacing empty groups by `"0"`. -/
def expandIpv6 (ip : String) : List String :=
  if containsSub "::".toList ip.toList then
    let parts2 := jsSplit ip "::"
    let left := parts2.headD ""
    let right := (parts2.drop 1).headD ""
    let l := if left = "" then [] else (jsSplit left ":").filter (· ≠ "")
    let r := if right = "" then [] else (jsSplit right ":").filter (· ≠ "")
    let zeros := 8 - (l.length + r.length)
    (l ++ List.replicate zeros "0" ++ r).map (fun p => if p = "" then "0" else p)
  else
    (jsSplit ip ":").map (fun p => if p = "" then "0" else p)

/-- Embeds `ipv6ToBig`: fold the expanded groups through
`(acc << 16n) + BigInt(parseInt(part, 16))`; `none` when a group parses to
`NaN`. -/
def ipv6ToBig (ip : String) : Option Int :=
  (expandIpv6 ip).foldlM (fun acc p => (parseIntHex p).map (fun v => acc * 65536 + v)) 0

/-- Lowercase hexadecimal digit character. -/
def hexChar (n : Nat) : Char := if n < 10 then Char.ofNat (48 + n) else Char.ofNat (87 + n)

/-- Fuel-driven digit accumulation for `hexStr`. -/
def hexStrCore : Nat → Nat → List Char
  | 0, _ => []
  | _ + 1, 0 => []
  | fuel + 1, n => hexStrCore fuel (n / 16) ++ [hexChar (n % 16)]

/-- Modelled from the JavaScript standard library:
`Number.prototype.toString(16)` for a natural number. -/
def hexStr (n : Nat) : String := if n = 0 then "0" else ⟨hexStrCore 32 n⟩

/-- Embeds `bigToIpv6`: emit the eight 16-bit groups, most significant
first, joined by `:`.  The final `replace` in the source maps every regex
match to itself and is therefore the identity on the string, so it is not
re-modelled. -/
def bigToIpv6 (n : Int) : String :=
  String.intercalate ":"
    ((List.range 8).map (fun i => hexStr (((n.fdiv ((65536 : Int) ^ (7 - i))).emod 65536).toNat)))

/-- Modelled from the Node.js standard library (not part of this
repository): validity of a dotted-quad IPv4 literal as accepted by
`net.isIP` — four dot-separated decimal groups of at most three digits,
no leading zeros, each at most 255. -/
def isIPv4 (s : String) : Bool :=
  let parts := jsSplit s "."
  parts.length = 4 && parts.all (fun p =>
    p ≠ "" && p.toList.all Char.isDigit && p.toList.length ≤ 3 &&
    (p = "0" || p.toList.headD ' ' ≠ '0') && decValue p.toList ≤ 255)

/-- Is `p` a valid (possibly empty-padded) hexadecimal IPv6 group of at
most four digits? -/
def isHexGroup (p : String) : Bool :=
  p ≠ "" && p.toList.length ≤ 4 && p.toList.all isHexDigitCh

/-- Modelled from the Node.js standard library (not part of this
repository): validity of an IPv6 literal as accepted by `net.isIP` —
either eight colon-separated hexadecimal groups, or fewer groups with a
single `::` abbreviation.  IPv4-mapped tails are not modelled (the
development never relies on them). -/
def isIPv6 (s : String) : Bool :=
  match jsSplit s "::" with
  | [full] =>
    let gs := jsSplit full ":"
    gs.length = 8 && gs.all isHexGroup
  | [l, r] =>
    let ls := if l = "" then [] else jsSplit l ":"
    let rs := if r = "" then [] else jsSplit r ":"
    ls.all isHexGroup && rs.all isHexGroup && ls.length + rs.length ≤ 7
  | _ => false

/-- Modelled from the Node.js standard library (not part of this
repository): `net.isIP`, returning `4`, `6`, or `0`. -/
def isIP (s : String) : Nat :=
  if isIPv4 s then 4 else if isIPv6 s then 6 else 0

/-! ### JSON values

A model of the JavaScript values that can appear in a parsed JSON
document.  JSON numbers are embedded as integers: every numeric field the
engine touches (`vmid`) is an integer, and no claim depends on non-integer
numerics. -/

inductive Json where
  | null
  | bool (b : Bool)
  | num (n : Int)
  | str (s : String)
  | arr (items : List Json)
  | obj (fields : List (String × Json))
deriving Repr

/-- First field of an object with the given key (JavaScript property
lookup on a parsed-JSON object). -/
def lookupField (fields : List (String × Json)) (key : String) : Option Json :=
  (fields.find? (fun f => f.1 = key)).map (fun f => f.2)

/-- Does the object have a field with the given key?  Models
`key in obj`. -/
def hasField (fields : List (String × Json)) (key : String) : Bool :=
  fields.any (fun f => f.1 = key)

/-- Modelled from JavaScript truthiness: `null`, `false`, `0` and the
empty string are falsy; arrays and objects are always truthy. -/
def truthy : Json → Bool
  | .null => false
  | .bool b => b
  | .num n => n ≠ 0
  | .str s => s ≠ ""
  | .arr _ => true
  | .obj _ => true

/-- Fuel-driven JavaScript string coercion (`String(v)`), as applied by
`String.prototype.replace` to a non-string replacement value: `null` and
`undefined` spell out, numbers print in decimal, arrays join their
elements with commas (`null` elements joining as the empty string), and
plain objects coerce to `"[object Object]"`.  The fuel bounds the nesting
depth of arrays; every use in this development instantiates it with a
bound exceeding the depth of the value. -/
def jsToStringF : Nat → Json → String
  | _, .null => "null"
  | _, .bool b => if b then "true" else "false"
  | _, .num n => toString n
  | _, .str s => s
  | _, .obj _ => "[object Object]"
  | 0, .arr _ => ""
  | fuel + 1, .arr items =>
    String.intercalate ","
      (items.map (fun j => match j with | .null => "" | v => jsToStringF fuel v))

/-- JavaScript string coercion at the fixed fuel used throughout. -/
def jsToString (j : Json) : String := jsToStringF 1000 j

/-! ### Inventory data model

Embedding of the inventory document shape enforced by the `joi` schema in
`loadInventory` (`src/lib/function.js` lines 211-264).  The `reserved`
block is embedded as an `Option` because `reserveVmId`/`reserveIpAddress`
explicitly handle an inventory object that lacks the field; the remaining
blocks are schema-required and their absence (which would crash the
JavaScript code paths that read them without a guard) is not modelled. -/

structure ProxmoxCfg where
  username : String
  password : String
  endpoint : String
  api_user : String
  api_token : String
  node : String
deriving Repr

structure TerraformBackend where
  type : String
  config : Json
deriving Repr

structure TerraformCfg where
  backend : TerraformBackend
deriving Repr

structure VmidEntry where
  vmid : Int
  refId : String
deriving Repr

structure IpEntry where
  ip : String
  refId : String
deriving Repr

structure Reserved where
  vmids : List VmidEntry
  ips : List IpEntry
deriving Repr

structure NetInterface where
  network : String
  ip : String
deriving Repr

structure Host where
  name : String
  vmid : Int
  type : String
  interfaces : List NetInterface
deriving Repr

structure Template where
  name : String
  version : String
  vmid : Int
deriving Repr

structure StaticRange where
  start : String
  «end» : String
deriving Repr

structure Network where
  name : String
  subnet : String
  gateway : String
  dns : String
  iface : String
  dhcp_enabled : Bool
  domain : Option String
  static_range : StaticRange
deriving Repr

structure Inventory where
  proxmox : ProxmoxCfg
  terraform : TerraformCfg
  reserved : Option Reserved
  templates : List Template
  networks : List Network
  hosts : List Host
deriving Repr

/-! ### Resource allocator -/

/-- Embeds the `ranges` table of `getNextVmId`. -/
def vmidRanges (t : String) : Option (Int × Int) :=
  if t = "baremetal" then some (0, 99)
  else if t = "vm" then some (100, 199)
  else if t = "lxc" then some (200, 299)
  else if t = "template" then some (300, 399)
  else none

/-- Embeds the ascending scan loops of `getNextVmId` and
`getNextIpAddress`: the first value in `[lo, lo + count)` not contained in
`used`, scanning upward. -/
def scanFree (lo : Int) (count : Nat) (used : List Int) : Option Int :=
  match count with
  | 0 => none
  | k + 1 => if lo ∈ used then scanFree (lo + 1) k used else some lo

/-- Embeds `getNextVmId` (`src/lib/function.js` lines 266-292): the used
set is the union of `templates[].vmid` and `reserved.vmids[].vmid`, and
the type's fixed range is scanned in ascending order.  Reading
`inventory.reserved.vmids` on an inventory without a `reserved` block
throws in JavaScript, embedded as an error. -/
def getNextVmId (type : String) (inventory : Inventory) : Except String Int :=
  match vmidRanges type with
  | none => .error ("Unknown type: " ++ type)
  | some range =>
    match inventory.reserved with
    | none => .error "TypeError: Cannot read properties of undefined (reading vmids)"
    | some res =>
      let used := inventory.templates.map (fun t => t.vmid) ++ res.vmids.map (fun v => v.vmid)
      match scanFree range.1 (range.2 - range.1 + 1).toNat used with
      | some id => .ok id
      | none => .error ("No available vmid for type " ++ type)

/-- Dispatch on the detected IP version, as the source does at each
conversion site (`version === 4 ? ipv4ToBig(x) : ipv6ToBig(x)`). -/
def convIp (ver : Nat) (s : String) : Option Int :=
  if ver = 4 then ipv4ToBig s else ipv6ToBig s

/-- Formatting dispatch (`version === 4 ? bigToIpv4(n) : bigToIpv6(n)`). -/
def fmtIp (ver : Nat) (n : Int) : String :=
  if ver = 4 then bigToIpv4 n else bigToIpv6 n

/-- Embeds the prefix-length extraction of `getNextIpAddress`
(lines 348-353): when the network's `subnet` contains `/` and splits into
exactly two parts with a non-empty second part, that second part is the
prefix length suffix. -/
def subnetPrefixLen (subnet : String) : Option String :=
  if containsSub "/".toList subnet.toList then
    let parts := jsSplit subnet "/"
    if parts.length = 2 && (parts.drop 1).headD "" ≠ "" then some ((parts.drop 1).headD "")
    else none
  else none

/-- Embeds the host-IP collection loop of `getNextIpAddress`
(lines 360-367): every `hosts[].interfaces[].ip` whose `network` matches
the requested network name, is non-empty, and passes `net.isIP`, converted
to the numeric domain.  A conversion failure (JavaScript `BigInt(NaN)`)
throws, embedded as `none`. -/
def hostUsedIps (ver : Nat) (networkName : String) (hosts : List Host) : Option (List Int) :=
  ((hosts.map (fun h => h.interfaces)).flatten).foldlM
    (fun acc iface =>
      if iface.network = networkName ∧ iface.ip ≠ "" ∧ isIP iface.ip ≠ 0 then
        (convIp ver iface.ip).map (fun b => acc ++ [b])
      else
        some acc)
    []

/-- Embeds the full used-set construction of `getNextIpAddress`
(lines 355-367): the gateway and dns addresses when non-empty, then the
matching committed host addresses.  Note that `reserved.ips` is *not*
consulted. -/
def usedIpSet (ver : Nat) (networkName : String) (netCfg : Network) (hosts : List Host) :
    Option (List Int) := do
  let g ← if netCfg.gateway ≠ "" then (convIp ver netCfg.gateway).map (fun b => [b]) else some []
  let d ← if netCfg.dns ≠ "" then (convIp ver netCfg.dns).map (fun b => [b]) else some []
  let h ← hostUsedIps ver networkName hosts
  some (g ++ d ++ h)

/-- Embeds `getNextIpAddress` (`src/lib/function.js` lines 294-378):
look up the network, validate the static range, convert all addresses to
the numeric domain, and return the lowest address of the range outside the
used set, formatted with the subnet's prefix length when known. -/
def getNextIpAddress (networkName : String) (inventory : Inventory) : Except String String :=
  match inventory.networks.find? (fun n => n.name = networkName) with
  | none => .error ("Network not found: " ++ networkName)
  | some netCfg =>
    let startIp := netCfg.static_range.start
    let endIp := netCfg.static_range.«end»
    if startIp = "" ∨ endIp = "" then
      .error ("Invalid static_range for network " ++ networkName)
    else
      let ver := isIP startIp
      if ver = 0 ∨ ver ≠ isIP endIp then
        .error "Start and end IP must be valid and same IP version"
      else
        match convIp ver startIp, convIp ver endIp with
        | some startBig, some endBig =>
          if startBig > endBig then .error "static_range start is greater than end"
          else
            match usedIpSet ver networkName netCfg inventory.hosts with
            | none => .error "RangeError: Cannot convert NaN to a BigInt"
            | some used =>
              match scanFree startBig (endBig - startBig + 1).toNat used with
              | some ipBig =>
                let ipStr := fmtIp ver ipBig
                .ok (match subnetPrefixLen netCfg.subnet with
                     | some pl => ipStr ++ "/" ++ pl
                     | none => ipStr)
              | none => .error ("No available static IP in range for network " ++ networkName)
        | _, _ => .error "RangeError: Cannot convert NaN to a BigInt"

/-! ### Reservation ledger -/

/-- Embeds the `if (!inventory.reserved) inventory.reserved = ...`
initialization shared by `reserveVmId` and `reserveIpAddress`. -/
def ensureReserved (inventory : Inventory) : Inventory :=
  match inventory.reserved with
  | none => { inventory with reserved := some ⟨[], []⟩ }
  | some _ => inventory

/-- Embeds `reserveVmId` (`src/lib/function.js` lines 380-393): return the
already-bound id for `refId` when present, otherwise allocate the next id
and append the new entry. -/
def reserveVmId (type : String) (inventory : Inventory) (refId : String) :
    Except String (Int × Inventory) :=
  let inv := ensureReserved inventory
  let res := inv.reserved.getD ⟨[], []⟩
  match res.vmids.find? (fun v => v.refId = refId) with
  | some existing => .ok (existing.vmid, inv)
  | none =>
    match getNextVmId type inv with
    | .error e => .error e
    | .ok vmid =>
      .ok (vmid, { inv with reserved := some { res with vmids := res.vmids ++ [⟨vmid, refId⟩] } })

/-- Embeds `releaseVmId` (`src/lib/function.js` lines 395-405).  When the
`reserved` block is missing or the `vmids` list is empty the function
returns `undefined` without touching the inventory; otherwise it reads
`vmids[index].vmid` *before* checking `index !== -1`, so a `refId` with no
entry in a non-empty list makes the JavaScript code throw
(`vmids[-1]` is `undefined`), embedded as an error. -/
def releaseVmId (inventory : Inventory) (refId : String) :
    Except String (Option Int × Inventory) :=
  match inventory.reserved with
  | none => .ok (none, inventory)
  | some res =>
    if res.vmids.isEmpty then .ok (none, inventory)
    else
      match res.vmids.findIdx? (fun v => v.refId = refId) with
      | none => .error "TypeError: Cannot read properties of undefined (reading vmid)"
      | some index =>
        .ok ((res.vmids.get? index).map (fun v => v.vmid),
             { inventory with reserved := some { res with vmids := res.vmids.eraseIdx index } })

/-- Embeds `reserveIpAddress` (`src/lib/function.js` lines 407-420),
symmetric to `reserveVmId` over `reserved.ips`. -/
def reserveIpAddress (networkName : String) (inventory : Inventory) (refId : String) :
    Except String (String × Inventory) :=
  let inv := ensureReserved inventory
  let res := inv.reserved.getD ⟨[], []⟩
  match res.ips.find? (fun e => e.refId = refId) with
  | some existing => .ok (existing.ip, inv)
  | none =>
    match getNextIpAddress networkName inv with
    | .error e => .error e
    | .ok ip =>
      .ok (ip, { inv with reserved := some { res with ips := res.ips ++ [⟨ip, refId⟩] } })

/-- Embeds `releaseIpAddress` (`src/lib/function.js` lines 422-432).  Only
a missing `reserved` block short-circuits to `undefined`; with the block
present, `ips[index].ip` is read before the `index !== -1` check, so any
`refId` with no entry (the empty list included) makes the JavaScript code
throw, embedded as an error. -/
def releaseIpAddress (inventory : Inventory) (refId : String) :
    Except String (Option String × Inventory) :=
  match inventory.reserved with
  | none => .ok (none, inventory)
  | some res =>
    match res.ips.findIdx? (fun e => e.refId = refId) with
    | none => .error "TypeError: Cannot read properties of undefined (reading ip)"
    | some index =>
      .ok ((res.ips.get? index).map (fun e => e.ip),
           { inventory with reserved := some { res with ips := res.ips.eraseIdx index } })

/-! ### Reference resolution engine -/

/-- Result of a JavaScript property navigation: a crash (thrown
`TypeError`), the `undefined` value, or a JSON value. -/
inductive JsRef where
  | crash
  | undefValue
  | val (j : Json)
deriving Repr

/-- Does `item.name === p` hold?  Only an object whose `name` field is the
string `p` matches; on every other value `item.name` is `undefined` (or a
non-string), which a strict comparison against a string rejects. -/
def isNameMatch (item : Json) (p : String) : Bool :=
  match item with
  | .obj fields =>
    match lookupField fields "name" with
    | some (.str s) => s = p
    | _ => false
  | _ => false

/-- Embeds `array.find(item => item.name === p)`: the first element whose
`name` field is the string `p`; `undefValue` when none matches.  Reading
`.name` off a `null` element throws, embedded as `crash`. -/
def findByName : List Json → String → JsRef
  | [], _ => .undefValue
  | item :: rest, p =>
    match item with
    | .null => .crash
    | _ => if isNameMatch item p then .val item else findByName rest p

/-- Embeds the navigation loop of `getRefValue` (`src/lib/function.js`
lines 435-450).  An array selects by `name`; a truthy object with the
segment as key steps into that field; anything else sets the result to
`null` and breaks out.  A find miss leaves `undefined`, which a later
segment turns into `null`; applying `in` to a truthy primitive throws,
embedded as `crash`. -/
def getRefValueLoop : List String → JsRef → JsRef
  | [], rv => rv
  | p :: rest, rv =>
    match rv with
    | .crash => .crash
    | .undefValue => .val .null
    | .val (.arr items) => getRefValueLoop rest (findByName items p)
    | .val (.obj fields) =>
      if hasField fields p then
        getRefValueLoop rest (.val ((lookupField fields p).getD .null))
      else
        .val .null
    | .val j => if truthy j then .crash else .val .null

/-- Embeds `getRefValue`: split the reference on dots and navigate. -/
def getRefValue (refString : String) (obj : Json) : JsRef :=
  getRefValueLoop (jsSplit refString ".") (.val obj)

/-- String coercion of a navigation result as `String.prototype.replace`
applies it (`undefined` spells out); `none` when the navigation crashed. -/
def jsRefToString : JsRef → Option String
  | .crash => none
  | .undefValue => some "undefined"
  | .val j => some (jsToString j)

/-! #### Token scanning

The source matches tokens with global regexes over the serialized
document: `/{inventory:([^"}]+)}/g`, `/{config:([^"}]+)}/g` and
`/"bw:([^"]+)"/g`.  Each is a literal opener, a non-empty run of
characters outside a small excluded set, and a closing character, so the
global scan is: at each position, if the opener starts here and the
maximal run of non-excluded characters after it is non-empty and followed
by the closer, that span is a match and scanning resumes after it;
otherwise scanning advances one character. -/

/-- One match attempt at the head of `s`; on success returns the matched
span and the remainder after it. -/
def tokenAt (pre : List Char) (excluded : Char → Bool) (close : Char) (s : List Char) :
    Option (List Char × List Char) :=
  if isPrefixL pre s then
    let rest := s.drop pre.length
    let payload := rest.takeWhile (fun c => !excluded c)
    match rest.drop payload.length with
    | c :: after => if payload ≠ [] && c = close then some (pre ++ payload ++ [c], after) else none
    | [] => none
  else none

/-- Fuel-driven global scan; fuel at least the length of the input suffices
because every step consumes at least one character. -/
def scanTokensF (pre : List Char) (excluded : Char → Bool) (close : Char) :
    Nat → List Char → List String
  | 0, _ => []
  | _, [] => []
  | fuel + 1, c :: rest =>
    match tokenAt pre excluded close (c :: rest) with
    | some (m, after) => String.mk m :: scanTokensF pre excluded close fuel after
    | none => scanTokensF pre excluded close fuel rest

/-- Characters excluded from an inventory/config token payload
(the `[^"}]` class). -/
def refTokenExcluded (c : Char) : Bool := c = '"' || c = '\x7d'

/-- All matches of `/{inventory:([^"}]+)}/g` in order. -/
def inventoryTokens (s : String) : List String :=
  scanTokensF "\x7binventory:".toList refTokenExcluded '\x7d' s.toList.length s.toList

/-- All matches of `/{config:([^"}]+)}/g` in order. -/
def configTokens (s : String) : List String :=
  scanTokensF "\x7bconfig:".toList refTokenExcluded '\x7d' s.toList.length s.toList

/-- Embeds `m.replace(/{|}/g, '')`: remove every brace character. -/
def stripBraces (s : String) : String :=
  ⟨s.toList.filter (fun c => c ≠ '\x7b' && c ≠ '\x7d')⟩

/-- Embeds `s.slice(n)` for ASCII strings. -/
def strDrop (s : String) (n : Nat) : String := ⟨s.toList.drop n⟩

/-- Dotted path carried by an inventory/config token: the match with its
braces removed and the token-kind marker (of length `kindLen`) dropped. -/
def refTokenPath (kindLen : Nat) (m : String) : String := strDrop (stripBraces m) kindLen

/-- One substitution step shared by `populateInventoryRefs` and
`populateUpperLevelRefs`: strip the braces from the match, drop the token
kind marker, navigate from `root`, and replace the first occurrence of the
match in the accumulated text with the string coercion of the lookup
result — including the coercions `"null"` and `"undefined"` when the
lookup failed to resolve. -/
def substRefToken (root : Json) (kindLen : Nat) (acc : String) (m : String) :
    Except String String :=
  match jsRefToString (getRefValue (refTokenPath kindLen m) root) with
  | none => .error "TypeError: Cannot use the in operator on a primitive value"
  | some repl => .ok (jsReplaceFirst acc m repl)

/-- Embeds `populateInventoryRefs` (`src/lib/function.js` lines 479-489)
at the level of the serialized document: the argument is
`JSON.stringify(config)` and the result is the rewritten text the source
hands to `JSON.parse`.  Every `{inventory:path}` match is substituted by
the coerced result of `getRefValue(path, inventory)`, resolved or not. -/
def populateInventoryRefsStr (strConfig : String) (inventory : Json) : Except String String :=
  (inventoryTokens strConfig).foldlM (substRefToken inventory "inventory:".toList.length) strConfig

/-- Embeds `populateUpperLevelRefs` (`src/lib/function.js` lines 491-501)
at the level of the serialized document; `config` is the parsed document
the text was serialized from, which the source navigates for every
`{config:path}` match. -/
def populateUpperLevelRefsStr (strConfig : String) (config : Json) : Except String String :=
  (configTokens strConfig).foldlM (substRefToken config "config:".toList.length) strConfig

/-! #### Bitwarden vault pass -/

/-- Embeds `updateInventory` (`src/lib/function.js` lines 503-511).  The
file handling is embedded at its boundary: `loaded` stands for the result
of `loadInventory(inventoryFile)` on the currently stored document
(`none` when loading fails), and the returned inventory is the document
serialized back to the file.  The stored document's `reserved` block is
replaced by the in-memory one; nothing else is touched. -/
def updateInventory (loaded : Option Inventory) (updatedInventory : Inventory) :
    Except String Inventory :=
  match loaded with
  | none => .error "Failed to load inventory for update"
  | some inventory => .ok { inventory with reserved := updatedInventory.reserved }

/-! ### Derived counting helpers -/

/-- Number of `reserved.vmids` entries bound to `refId` (an absent
`reserved` block counting as empty). -/
def vmRefCount (inv : Inventory) (refId : String) : Nat :=
  (((inv.reserved.getD ⟨[], []⟩).vmids).filter (fun v => v.refId = refId)).length

/-- Number of `reserved.ips` entries bound to `refId` (an absent
`reserved` block counting as empty). -/
def ipRefCount (inv : Inventory) (refId : String) : Nat :=
  (((inv.reserved.getD ⟨[], []⟩).ips).filter (fun e => e.refId = refId)).length

/-! ### Concrete fixtures for witnesses and counterexamples -/

/-- Opaque connection block shared by the concrete inventories. -/
def tProx : ProxmoxCfg := ⟨"root", "pw", "pve.local:8006", "root@pam!tok", "secret", "pve"⟩

/-- Opaque backend block shared by the concrete inventories. -/
def tTf : TerraformCfg := ⟨⟨"s3", .obj [("bucket", .str "tf-state")]⟩⟩

/-- The network of end-to-end scenario A: `static_range` 10.0.0.2-10.0.0.4,
gateway and dns both 10.0.0.1 (the subnet carries no `/` so the allocator
returns a bare address). -/
def lanNet : Network :=
  ⟨"lan", "10.0.0.0", "10.0.0.1", "10.0.0.1", "vmbr0", false, none, ⟨"10.0.0.2", "10.0.0.4"⟩⟩

/-- Scenario A inventory: network `lan`, no committed hosts, empty ledger. -/
def scenarioAInv : Inventory := ⟨tProx, tTf, some ⟨[], []⟩, [], [lanNet], []⟩

/-- `scenarioAInv` after the first reservation binds `ip:lan:host1` to
10.0.0.2. -/
def scenarioAInv1 : Inventory :=
  ⟨tProx, tTf, some ⟨[], [⟨"10.0.0.2", "ip:lan:host1"⟩]⟩, [], [lanNet], []⟩

/-- `scenarioAInv1` after the second reservation also binds `ip:lan:host2`
to 10.0.0.2 — the collision. -/
def scenarioAInv2 : Inventory :=
  ⟨tProx, tTf, some ⟨[], [⟨"10.0.0.2", "ip:lan:host1"⟩, ⟨"10.0.0.2", "ip:lan:host2"⟩]⟩,
   [], [lanNet], []⟩

/-- Scenario B inventory: no hosts, one committed template with vmid 300,
empty ledger. -/
def scenarioBInv : Inventory := ⟨tProx, tTf, some ⟨[], []⟩, [⟨"base", "1.0", 300⟩], [], []⟩

/-- Inventory whose non-empty `reserved.vmids` holds only the entry
`{vmid: 100, refId: "vm:id:web"}` (and no ips). -/
def boundInv : Inventory := ⟨tProx, tTf, some ⟨[⟨100, "vm:id:web"⟩], []⟩, [], [], []⟩

/-- `boundInv` after its single vmid entry is released. -/
def boundInvReleased : Inventory := ⟨tProx, tTf, some ⟨[], []⟩, [], [], []⟩

/-- Inventory with a committed host holding vmid 100 (inside the `vm`
range) and an empty ledger. -/
def hostCollisionInv : Inventory := ⟨tProx, tTf, some ⟨[], []⟩, [], [], [⟨"h1", 100, "vm", []⟩]⟩

/-- `hostCollisionInv` after `reserveVmId` hands out the host's own vmid. -/
def hostCollisionInv1 : Inventory :=
  ⟨tProx, tTf, some ⟨[⟨100, "vm:id:web"⟩], []⟩, [], [], [⟨"h1", 100, "vm", []⟩]⟩

/-- Scenario C network: one-address static range 10.0.0.5-10.0.0.5 with a
gateway and dns outside it. -/
def lanNet5 : Network :=
  ⟨"lan", "10.0.0.0/24", "10.0.0.254", "10.0.0.253", "vmbr0", false, none,
   ⟨"10.0.0.5", "10.0.0.5"⟩⟩

/-- Scenario C inventory: the single address of the range is already used
by a committed host. -/
def scenarioCInv : Inventory :=
  ⟨tProx, tTf, some ⟨[], []⟩, [], [lanNet5], [⟨"h", 5, "vm", [⟨"lan", "10.0.0.5"⟩]⟩]⟩

/-- Scenario D inventory document (as parsed JSON): a `networks` array
whose element named `lan` stores gateway `10.0.0.1`. -/
def scenarioDJson : Json :=
  .obj [("networks", .arr [.obj [("name", .str "lan"), ("gateway", .str "10.0.0.1")]])]

/-- An in-memory inventory differing from `scenarioAInv` in every
top-level block, for the frame-effect witness. -/
def memInv : Inventory :=
  ⟨⟨"other", "pw2", "pve2:8006", "u@pam!t2", "s2", "pve2"⟩, ⟨⟨"local", .obj []⟩⟩,
   some ⟨[⟨150, "vm:id:db"⟩], [⟨"10.0.0.9", "ip:lan:db"⟩]⟩,
   [⟨"tmpl2", "2.0", 301⟩], [], [⟨"hx", 42, "lxc", []⟩]⟩

/-- The stored document after `updateInventory scenarioAInv memInv`. -/
def updatedStoredInv : Inventory :=
  ⟨tProx, tTf, some ⟨[⟨150, "vm:id:db"⟩], [⟨"10.0.0.9", "ip:lan:db"⟩]⟩, [], [lanNet], []⟩

/-- `scenarioAInv` with the `reserved` field missing entirely. -/
def noReservedInv : Inventory := ⟨tProx, tTf, none, [], [lanNet], []⟩

/-- `noReservedInv` with `reserved` initialized to empty lists. -/
def noReservedInvInit : Inventory := ⟨tProx, tTf, some ⟨[], []⟩, [], [lanNet], []⟩

/-- `scenarioAInv` after `reserveVmId` binds `vm:id:web` to 100. -/
def scenarioAInvVm : Inventory :=
  ⟨tProx, tTf, some ⟨[⟨100, "vm:id:web"⟩], []⟩, [], [lanNet], []⟩

/-- `noReservedInv` after `reserveVmId` binds `web` to 100. -/
def noReservedOutVm : Inventory :=
  ⟨tProx, tTf, some ⟨[⟨100, "web"⟩], []⟩, [], [lanNet], []⟩

/-- `noReservedInv` after `reserveIpAddress` binds `web` to 10.0.0.2. -/
def noReservedOutIp : Inventory :=
  ⟨tProx, tTf, some ⟨[], [⟨"10.0.0.2", "web"⟩]⟩, [], [lanNet], []⟩

theorem scanFree_eq_some (count : Nat) (lo m : Int) (used : List Int)
    (h1 : lo ≤ m) (h2 : m < lo + count) (h3 : m ∉ used)
    (h4 : ∀ j : Int, lo ≤ j → j < m → j ∈ used) :
    scanFree lo count used = some m := by
  induction count generalizing lo with
  | zero => exact absurd h2 (by omega)
  | succ k ih =>
    rw [scanFree]
    by_cases hmem : lo ∈ used
    · rw [if_pos hmem]
      have hne : lo ≠ m := fun h => h3 (h ▸ hmem)
      exact ih (lo + 1) (by omega) (by omega) (fun j hj1 hj2 => h4 j (by omega) hj2)
    · rw [if_neg hmem]
      have hm : m = lo := by
        by_contra hne
        exact hmem (h4 lo le_rfl (by omega))
      rw [hm]

theorem scanFree_eq_none (count : Nat) (lo : Int) (used : List Int)
    (h : ∀ j : Int, lo ≤ j → j < lo + count → j ∈ used) :
    scanFree lo count used = none := by
  induction count generalizing lo with
  | zero => rfl
  | succ k ih =>
    rw [scanFree, if_pos (h lo le_rfl (by omega))]
    exact ih (lo + 1) (fun j h1 h2 => h j (by omega) (by omega))

theorem ensureReserved_reserved (inv : Inventory) :
    (ensureReserved inv).reserved = some (inv.reserved.getD ⟨[], []⟩) := by
  cases h : inv.reserved <;> simp [ensureReserved, h]

theorem ensureReserved_of_some (inv : Inventory) (res : Reserved) (h : inv.reserved = some res) :
    ensureReserved inv = inv := by
  simp [ensureReserved, h]

theorem ensureReserved_mk (p : ProxmoxCfg) (t : TerraformCfg) (res : Reserved)
    (tm : List Template) (nw : List Network) (hs : List Host) :
    ensureReserved ⟨p, t, some res, tm, nw, hs⟩ = ⟨p, t, some res, tm, nw, hs⟩ := rfl

theorem find?_append_of_none {α : Type} (p : α → Bool) (l₁ l₂ : List α)
    (h : l₁.find? p = none) : (l₁ ++ l₂).find? p = l₂.find? p := by
  induction l₁ with
  | nil => rfl
  | cons a as ih =>
    cases hpa : p a with
    | true => rw [List.find?_cons_of_pos _ hpa] at h; exact absurd h (by simp)
    | false =>
      rw [List.find?_cons_of_neg _ (by simp [hpa])] at h
      rw [List.cons_append, List.find?_cons_of_neg _ (by simp [hpa])]
      exact ih h

theorem filter_length_eq_one_of_find? {α : Type} (p : α → Bool) (l : List α) (x : α)
    (hfind : l.find? p = some x) (hle : (l.filter p).length ≤ 1) :
    (l.filter p).length = 1 := by
  have hx : x ∈ l.filter p :=
    List.mem_filter.mpr ⟨List.mem_of_find?_eq_some hfind, List.find?_some hfind⟩
  have hpos : 0 < (l.filter p).length := List.length_pos.mpr (List.ne_nil_of_mem hx)
  omega

theorem lookupField_hasField {fields : List (String × Json)} {key : String} {v : Json}
    (h : lookupField fields key = some v) : hasField fields key = true := by
  unfold lookupField at h
  obtain ⟨fd, hfd, hv⟩ := Option.map_eq_some'.mp h
  have hp := List.find?_some hfd
  exact List.any_eq_true.mpr ⟨fd, List.mem_of_find?_eq_some hfd, hp⟩

/-! ### Claim theorems -/

/-- C1: the claim fails on the code.  On scenario A's inventory (network
`lan` with range 10.0.0.2-10.0.0.4, gateway and dns 10.0.0.1, no hosts,
empty ledger) the first reservation for `ip:lan:host1` does return
10.0.0.2, but the second reservation for the distinct label `ip:lan:host2`
returns 10.0.0.2 *again* — `getNextIpAddress` never consults
`reserved.ips`, so two distinct refIds end up bound to the same address
instead of 10.0.0.2 and 10.0.0.3. -/
theorem reserveIpAddress_rebinds_same_address :
    reserveIpAddress "lan" scenarioAInv "ip:lan:host1" = .ok ("10.0.0.2", scenarioAInv1) ∧
    reserveIpAddress "lan" scenarioAInv1 "ip:lan:host2" = .ok ("10.0.0.2", scenarioAInv2) :=
  ⟨rfl, rfl⟩

/-- C2: for every inventory carrying a `reserved` block and every type
with a range in the fixed table, `getNextVmId` returns the smallest id of
the range outside the union of `templates[].vmid` and
`reserved.vmids[].vmid`. -/
theorem getNextVmId_returns_least_free (type : String) (inv : Inventory) (res : Reserved)
    (lo hi m : Int)
    (hres : inv.reserved = some res)
    (hrange : vmidRanges type = some (lo, hi))
    (hlo : lo ≤ m) (hhi : m ≤ hi)
    (hfree : m ∉ inv.templates.map (fun t => t.vmid) ++ res.vmids.map (fun v => v.vmid))
    (hleast : ∀ j : Int, lo ≤ j → j < m →
      j ∈ inv.templates.map (fun t => t.vmid) ++ res.vmids.map (fun v => v.vmid)) :
    getNextVmId type inv = .ok m := by
  have hscan : scanFree lo (hi - lo + 1).toNat
      (inv.templates.map (fun t => t.vmid) ++ res.vmids.map (fun v => v.vmid)) = some m :=
    scanFree_eq_some _ lo m _ hlo (by omega) hfree hleast
  simp only [getNextVmId, hrange, hres, hscan]

/-- C2 witness: scenario B — hosts empty, templates `[{vmid: 300}]`, type
`vm` resolves to 100. -/
theorem getNextVmId_returns_least_free_witness :
    getNextVmId "vm" scenarioBInv = .ok 100 :=
  getNextVmId_returns_least_free "vm" scenarioBInv ⟨[], []⟩ 100 199 100 rfl rfl
    (by omega) (by omega) (by decide)
    (fun _ h1 h2 => absurd (lt_of_le_of_lt h1 h2) (lt_irrefl 100))

/-- C4: the claim is right and the code is wrong.  Releasing a `refId`
that has no entry while the reserved list is non-empty is specified as a
no-op returning `undefined`, but the code reads `vmids[index].vmid`
(resp. `ips[index].ip`) before checking `index !== -1`, so it throws a
`TypeError` on `vmids[-1]`.  The bound-refId path behaves as specified:
the entry is removed and its value returned. -/
theorem releaseVmId_throws_on_missing_entry :
    releaseVmId boundInv "ip:lan:ghost" =
      .error "TypeError: Cannot read properties of undefined (reading vmid)" ∧
    releaseIpAddress boundInv "ip:lan:ghost" =
      .error "TypeError: Cannot read properties of undefined (reading ip)" ∧
    releaseVmId boundInv "vm:id:web" = .ok (some 100, boundInvReleased) :=
  ⟨rfl, rfl, rfl⟩

/-- C7: the claim fails on the code.  `getNextVmId` computes its used set
from `templates[].vmid` and `reserved.vmids[].vmid` only — never from
`hosts[].vmid` — so with a committed host holding vmid 100 and an empty
ledger, `reserveVmId` for type `vm` hands out 100 and the resulting
`reserved.vmids` entry collides with the committed host's vmid. -/
theorem reserveVmId_reuses_committed_host_vmid :
    reserveVmId "vm" hostCollisionInv "vm:id:web" = .ok (100, hostCollisionInv1) ∧
    hostCollisionInv.hosts.map (fun h => h.vmid) = [100] :=
  ⟨rfl, rfl⟩

/-- C3: reservation is idempotent in the `refId`.  On any inventory whose
ledger holds at most one entry for the `refId` (the documented ledger
invariant), a successful `reserveVmId` (resp. `reserveIpAddress`) is
repeatable: the second call returns exactly the first call's value and
inventory, and the resulting ledger holds exactly one entry for the
`refId`. -/
theorem reserve_same_refId_idempotent (type networkName refId : String) (inv : Inventory)
    (hvm : vmRefCount inv refId ≤ 1) (hip : ipRefCount inv refId ≤ 1) :
    (∀ v inv1, reserveVmId type inv refId = .ok (v, inv1) →
      reserveVmId type inv1 refId = .ok (v, inv1) ∧ vmRefCount inv1 refId = 1) ∧
    (∀ ip inv1, reserveIpAddress networkName inv refId = .ok (ip, inv1) →
      reserveIpAddress networkName inv1 refId = .ok (ip, inv1) ∧ ipRefCount inv1 refId = 1) := by
  simp only [vmRefCount, ipRefCount] at hvm hip ⊢
  constructor
  · intro v inv1 h
    simp only [reserveVmId, ensureReserved_reserved, Option.getD_some] at h
    cases hfind : ((inv.reserved.getD ⟨[], []⟩).vmids).find? (fun e => e.refId = refId) with
    | some existing =>
      rw [hfind] at h
      simp only [Except.ok.injEq, Prod.mk.injEq] at h
      obtain ⟨hv, hinv1⟩ := h
      subst hinv1
      subst hv
      refine ⟨?_, ?_⟩
      · simp only [reserveVmId, ensureReserved_of_some _ _ (ensureReserved_reserved inv),
          ensureReserved_reserved, Option.getD_some, hfind]
      · simp only [ensureReserved_reserved, Option.getD_some]
        exact filter_length_eq_one_of_find? _ _ _ hfind hvm
    | none =>
      rw [hfind] at h
      cases halloc : getNextVmId type (ensureReserved inv) with
      | error e => rw [halloc] at h; exact absurd h (by simp)
      | ok vmid =>
        rw [halloc] at h
        simp only [Except.ok.injEq, Prod.mk.injEq] at h
        obtain ⟨hv, hinv1⟩ := h
        subst hv
        subst hinv1
        have hfind1 : (((inv.reserved.getD ⟨[], []⟩).vmids) ++ [(⟨vmid, refId⟩ : VmidEntry)]).find?
            (fun e => e.refId = refId) = some ⟨vmid, refId⟩ := by
          rw [find?_append_of_none _ _ _ hfind]
          simp
        refine ⟨?_, ?_⟩
        · simp only [reserveVmId, ensureReserved_mk, Option.getD_some, hfind1]
        · simp only [Option.getD_some, List.filter_append]
          rw [List.filter_eq_nil_iff.mpr (fun a ha => by
            simpa using List.find?_eq_none.mp hfind a ha)]
          simp
  · intro ip inv1 h
    simp only [reserveIpAddress, ensureReserved_reserved, Option.getD_some] at h
    cases hfind : ((inv.reserved.getD ⟨[], []⟩).ips).find? (fun e => e.refId = refId) with
    | some existing =>
      rw [hfind] at h
      simp only [Except.ok.injEq, Prod.mk.injEq] at h
      obtain ⟨hv, hinv1⟩ := h
      subst hinv1
      subst hv
      refine ⟨?_, ?_⟩
      · simp only [reserveIpAddress, ensureReserved_of_some _ _ (ensureReserved_reserved inv),
          ensureReserved_reserved, Option.getD_some, hfind]
      · simp only [ensureReserved_reserved, Option.getD_some]
        exact filter_length_eq_one_of_find? _ _ _ hfind hip
    | none =>
      rw [hfind] at h
      cases halloc : getNextIpAddress networkName (ensureReserved inv) with
      | error e => rw [halloc] at h; exact absurd h (by simp)
      | ok ipv =>
        rw [halloc] at h
        simp only [Except.ok.injEq, Prod.mk.injEq] at h
        obtain ⟨hv, hinv1⟩ := h
        subst hv
        subst hinv1
        have hfind1 : (((inv.reserved.getD ⟨[], []⟩).ips) ++ [(⟨ipv, refId⟩ : IpEntry)]).find?
            (fun e => e.refId = refId) = some ⟨ipv, refId⟩ := by
          rw [find?_append_of_none _ _ _ hfind]
          simp
        refine ⟨?_, ?_⟩
        · simp only [reserveIpAddress, ensureReserved_mk, Option.getD_some, hfind1]
        · simp only [Option.getD_some, List.filter_append]
          rw [List.filter_eq_nil_iff.mpr (fun a ha => by
            simpa using List.find?_eq_none.mp hfind a ha)]
          simp

/-- C3 witness: on scenario A's inventory the idempotence theorem applies
concretely, to a vmid reservation bound to 100 and to an ip reservation
bound to 10.0.0.2. -/
theorem reserve_same_refId_idempotent_witness :
    (reserveVmId "vm" scenarioAInv "vm:id:web" = .ok (100, scenarioAInvVm) ∧
     reserveVmId "vm" scenarioAInvVm "vm:id:web" = .ok (100, scenarioAInvVm) ∧
     vmRefCount scenarioAInvVm "vm:id:web" = 1) ∧
    (reserveIpAddress "lan" scenarioAInv "ip:lan:host1" = .ok ("10.0.0.2", scenarioAInv1) ∧
     reserveIpAddress "lan" scenarioAInv1 "ip:lan:host1" = .ok ("10.0.0.2", scenarioAInv1) ∧
     ipRefCount scenarioAInv1 "ip:lan:host1" = 1) := by
  refine ⟨⟨rfl, ?_⟩, ⟨rfl, ?_⟩⟩
  · exact (reserve_same_refId_idempotent "vm" "lan" "vm:id:web" scenarioAInv
      (by decide) (by decide)).1 100 scenarioAInvVm rfl
  · exact (reserve_same_refId_idempotent "vm" "lan" "ip:lan:host1" scenarioAInv
      (by decide) (by decide)).2 "10.0.0.2" scenarioAInv1 rfl

/-- C9: persisting reservations rewrites only the `reserved` block.  For
any stored document that loaded successfully, `updateInventory` produces a
document whose `reserved` equals the in-memory one and whose every other
top-level block equals the previously stored one. -/
theorem updateInventory_frames_reserved (stored mem out : Inventory)
    (h : updateInventory (some stored) mem = .ok out) :
    out.reserved = mem.reserved ∧ out.proxmox = stored.proxmox ∧
    out.terraform = stored.terraform ∧ out.hosts = stored.hosts ∧
    out.templates = stored.templates ∧ out.networks = stored.networks := by
  simp only [updateInventory, Except.ok.injEq] at h
  subst h
  exact ⟨rfl, rfl, rfl, rfl, rfl, rfl⟩

/-- C9 witness: storing `memInv`'s reservations over the stored
`scenarioAInv` keeps every non-`reserved` block of `scenarioAInv` even
though `memInv` differs in all of them. -/
theorem updateInventory_frames_reserved_witness :
    updatedStoredInv.reserved = memInv.reserved ∧
    updatedStoredInv.proxmox = scenarioAInv.proxmox ∧
    updatedStoredInv.terraform = scenarioAInv.terraform ∧
    updatedStoredInv.hosts = scenarioAInv.hosts ∧
    updatedStoredInv.templates = scenarioAInv.templates ∧
    updatedStoredInv.networks = scenarioAInv.networks :=
  updateInventory_frames_reserved scenarioAInv memInv updatedStoredInv rfl

/-- C10: on an inventory lacking the `reserved` field, the reserve
operations do not fail on the missing field: they behave exactly as on the
same inventory with `reserved = {vmids: [], ips: []}`, and a successful
reservation leaves a well-formed `reserved` block holding exactly the
single new entry. -/
theorem reserve_initializes_missing_reserved (type networkName refId : String) (inv : Inventory)
    (hmiss : inv.reserved = none) :
    reserveVmId type inv refId =
      reserveVmId type { inv with reserved := some ⟨[], []⟩ } refId ∧
    reserveIpAddress networkName inv refId =
      reserveIpAddress networkName { inv with reserved := some ⟨[], []⟩ } refId ∧
    (∀ v inv1, reserveVmId type inv refId = .ok (v, inv1) →
      inv1.reserved = some ⟨[⟨v, refId⟩], []⟩) ∧
    (∀ ip inv1, reserveIpAddress networkName inv refId = .ok (ip, inv1) →
      inv1.reserved = some ⟨[], [⟨ip, refId⟩]⟩) := by
  have hE : ensureReserved inv = { inv with reserved := some ⟨[], []⟩ } := by
    simp [ensureReserved, hmiss]
  have hE2 : ensureReserved { inv with reserved := some (⟨[], []⟩ : Reserved) } =
      { inv with reserved := some ⟨[], []⟩ } := by
    simp [ensureReserved]
  refine ⟨?_, ?_, ?_, ?_⟩
  · simp only [reserveVmId, hE, hE2]
  · simp only [reserveIpAddress, hE, hE2]
  · intro v inv1 h
    simp only [reserveVmId, hE, Option.getD_some, List.find?_nil] at h
    cases halloc : getNextVmId type { inv with reserved := some (⟨[], []⟩ : Reserved) } with
    | error e => rw [halloc] at h; exact absurd h (by simp)
    | ok vmid =>
      rw [halloc] at h
      simp only [Except.ok.injEq, Prod.mk.injEq, List.nil_append] at h
      obtain ⟨hv, hinv1⟩ := h
      subst hv
      subst hinv1
      rfl
  · intro ip inv1 h
    simp only [reserveIpAddress, hE, Option.getD_some, List.find?_nil] at h
    cases halloc : getNextIpAddress networkName { inv with reserved := some (⟨[], []⟩ : Reserved) } with
    | error e => rw [halloc] at h; exact absurd h (by simp)
    | ok ipv =>
      rw [halloc] at h
      simp only [Except.ok.injEq, Prod.mk.injEq, List.nil_append] at h
      obtain ⟨hv, hinv1⟩ := h
      subst hv
      subst hinv1
      rfl

/-- C10 witness: on `noReservedInv` (no `reserved` field at all) both
reserve operations agree with the initialized inventory and leave exactly
one new entry. -/
theorem reserve_initializes_missing_reserved_witness :
    reserveVmId "vm" noReservedInv "web" = reserveVmId "vm" noReservedInvInit "web" ∧
    reserveIpAddress "lan" noReservedInv "web" =
      reserveIpAddress "lan" noReservedInvInit "web" ∧
    noReservedOutVm.reserved = some ⟨[⟨100, "web"⟩], []⟩ ∧
    noReservedOutIp.reserved = some ⟨[], [⟨"10.0.0.2", "web"⟩]⟩ := by
  have h := reserve_initializes_missing_reserved "vm" "lan" "web" noReservedInv rfl
  exact ⟨h.1, h.2.1, h.2.2.1 100 noReservedOutVm rfl, h.2.2.2 "10.0.0.2" noReservedOutIp rfl⟩

/-- C5: for a found network whose static range has valid same-family
`start ≤ end` (and gateway/dns/host addresses convertible in that
family), `getNextIpAddress` returns the lowest numeric address of
`[start, end]` outside the used set — the gateway, the dns, and every
committed host interface address on that network — formatted with the
subnet's prefix length when known; and when every address of the range is
used it fails with the no-capacity error. -/
theorem getNextIpAddress_returns_lowest_free (networkName : String) (inv : Inventory)
    (netCfg : Network) (ver : Nat) (s e : Int) (used : List Int)
    (hfind : inv.networks.find? (fun n => n.name = networkName) = some netCfg)
    (hstart : netCfg.static_range.start ≠ "")
    (hend : netCfg.static_range.«end» ≠ "")
    (hver : isIP netCfg.static_range.start = ver)
    (hver0 : ver ≠ 0)
    (hvere : isIP netCfg.static_range.«end» = ver)
    (hconvs : convIp ver netCfg.static_range.start = some s)
    (hconve : convIp ver netCfg.static_range.«end» = some e)
    (hse : s ≤ e)
    (hused : usedIpSet ver networkName netCfg inv.hosts = some used) :
    (∀ m : Int, s ≤ m → m ≤ e → m ∉ used → (∀ j : Int, s ≤ j → j < m → j ∈ used) →
      getNextIpAddress networkName inv =
        .ok (match subnetPrefixLen netCfg.subnet with
             | some pl => fmtIp ver m ++ "/" ++ pl
             | none => fmtIp ver m)) ∧
    ((∀ j : Int, s ≤ j → j ≤ e → j ∈ used) →
      getNextIpAddress networkName inv =
        .error ("No available static IP in range for network " ++ networkName)) := by
  have hgt : ¬ (s > e) := by omega
  constructor
  · intro m hm1 hm2 hm3 hm4
    have hscan : scanFree s (e - s + 1).toNat used = some m :=
      scanFree_eq_some _ s m used hm1 (by omega) hm3 hm4
    simp [getNextIpAddress, hfind, hstart, hend, hver, hvere, hver0, hgt, hconvs, hconve,
      hused, hscan]
  · intro hall
    have hscan : scanFree s (e - s + 1).toNat used = none :=
      scanFree_eq_none _ s used (fun j h1 h2 => hall j h1 (by omega))
    simp [getNextIpAddress, hfind, hstart, hend, hver, hvere, hver0, hgt, hconvs, hconve,
      hused, hscan]

/-- C5 witness: scenario A's inventory allocates 10.0.0.2 (the range
start, skipping nothing since gateway and dns sit outside the range), and
scenario C's one-address range already used by a host fails with the
no-capacity error. -/
theorem getNextIpAddress_returns_lowest_free_witness :
    getNextIpAddress "lan" scenarioAInv = .ok "10.0.0.2" ∧
    getNextIpAddress "lan" scenarioCInv =
      .error "No available static IP in range for network lan" := by
  constructor
  · exact (getNextIpAddress_returns_lowest_free "lan" scenarioAInv lanNet 4 167772162 167772164
      [167772161, 167772161] rfl (by decide) (by decide) rfl (by decide) rfl rfl rfl (by decide)
      rfl).1 167772162 (by decide) (by decide) (by decide)
      (fun _ h1 h2 => absurd (lt_of_le_of_lt h1 h2) (lt_irrefl 167772162))
  · exact (getNextIpAddress_returns_lowest_free "lan" scenarioCInv lanNet5 4 167772165 167772165
      [167772414, 167772413, 167772165] rfl (by decide) (by decide) rfl (by decide) rfl rfl rfl
      (by decide) rfl).2 (fun j h1 h2 => by
        have hj : j = 167772165 := by omega
        subst hj
        decide)

/-- C8: dotted-path resolution navigates object fields by key and selects
from an array the element whose `name` field equals the segment, so the
reference path `networks.lan.gateway` resolves to exactly the gateway
string stored on the network named `lan`; a document carrying the
corresponding inventory token has it substituted by that gateway string. -/
theorem inventory_ref_resolves_gateway (inv : Json) (fields netFields : List (String × Json))
    (nets : List Json) (gw : String)
    (hinv : inv = .obj fields)
    (hnets : lookupField fields "networks" = some (.arr nets))
    (hlan : findByName nets "lan" = .val (.obj netFields))
    (hgw : lookupField netFields "gateway" = some (.str gw))
    (s2 tok : String)
    (htok : inventoryTokens s2 = [tok])
    (hpath : refTokenPath ("inventory:".toList.length) tok = "networks.lan.gateway") :
    getRefValue "networks.lan.gateway" inv = .val (.str gw) ∧
    populateInventoryRefsStr s2 inv = .ok (jsReplaceFirst s2 tok gw) := by
  have hnav : getRefValue "networks.lan.gateway" inv = .val (.str gw) := by
    subst hinv
    have hsplit : jsSplit "networks.lan.gateway" "." = ["networks", "lan", "gateway"] := rfl
    unfold getRefValue
    rw [hsplit]
    simp only [getRefValueLoop, lookupField_hasField hnets, if_true, hnets, Option.getD_some,
      hlan, lookupField_hasField hgw, hgw]
  refine ⟨hnav, ?_⟩
  unfold populateInventoryRefsStr
  rw [htok, List.foldlM_cons]
  simp only [substRefToken, hpath, hnav, jsRefToString]
  rfl

/-- C8 witness: scenario D — on the concrete inventory document whose
network `lan` stores gateway `10.0.0.1`, the reference resolves to the
literal string `10.0.0.1` and the token in a serialized document is
replaced by it. -/
theorem inventory_ref_resolves_gateway_witness :
    getRefValue "networks.lan.gateway" scenarioDJson = .val (.str "10.0.0.1") ∧
    populateInventoryRefsStr "\x7b\"gw\":\"\x7binventory:networks.lan.gateway\x7d\"\x7d"
      scenarioDJson = .ok "\x7b\"gw\":\"10.0.0.1\"\x7d" :=
  inventory_ref_resolves_gateway scenarioDJson
    [("networks", .arr [.obj [("name", .str "lan"), ("gateway", .str "10.0.0.1")]])]
    [("name", .str "lan"), ("gateway", .str "10.0.0.1")]
    [.obj [("name", .str "lan"), ("gateway", .str "10.0.0.1")]]
    "10.0.0.1" rfl rfl rfl rfl
    "\x7b\"gw\":\"\x7binventory:networks.lan.gateway\x7d\"\x7d"
    "\x7binventory:networks.lan.gateway\x7d" rfl rfl

end HomelabCli
